import Mathlib

/-!
Shallow embedding of the domain logic of the gym-management application
(`src/index.tsx`): the fee calculator (`FitnessBusinessLogic.calcularImporte`),
the registration handler (`handleRegister`), member removal, the aggregate
statistics (`stats`), the search filter (`filteredSocios`) and the
localStorage hydration, together with theorems settling the specification
claims about them.

Modelling conventions:
- JavaScript numbers used for money are modelled as rationals (`ℚ`); the
  decimal literals 0.8 and 1.05 of the source become `8/10` and `105/100`.
- JavaScript strings that undergo case conversion or substring search are
  modelled as lists of Unicode code points (`List Nat`); strings used only
  for equality tests (plan ids, location codes, payment methods) are
  modelled as Lean `String`.
- `parseInt` on the two required numeric form inputs is modelled as
  `Option Int` (`none` = value the browser-level `required`/number checks
  reject as empty).
-/

namespace Gym

/-- JavaScript strings modelled as lists of Unicode code points. -/
abbrev JsString := List Nat

/-- Model of `String.prototype.toLowerCase` on a single code point
(ASCII fragment: uppercase letters 65..90 map to 97..122, everything
else is unchanged). -/
def jsToLower (c : Nat) : Nat := if 65 ≤ c ∧ c ≤ 90 then c + 32 else c

/-- Model of `String.prototype.toLowerCase`. -/
def toLowerCase (s : JsString) : JsString := s.map jsToLower

/-- Model of `s.includes(q)`: `q` occurs as a contiguous substring of `s`. -/
def includes (s q : JsString) : Bool := decide (q <:+: s)

/-- Decimal digit code points of a natural number, as produced by
JavaScript `Number.prototype.toString` for non-negative integers. -/
def natDigitCodes (n : Nat) : List Nat :=
  if n < 10 then [48 + n]
  else natDigitCodes (n / 10) ++ [48 + n % 10]
termination_by n
decreasing_by
  exact Nat.div_lt_self (by omega) (by omega)

/-- Model of `Number.prototype.toString` on the integers stored in `dni`:
decimal digits, preceded by code point 45 (`-`) when negative. -/
def intToStr (i : Int) : JsString :=
  if i < 0 then 45 :: natDigitCodes i.natAbs else natDigitCodes i.natAbs

/-- A membership plan of the `MEMBRESIAS` catalog. -/
structure Membresia where
  id : String
  precio : ℚ
  nombre : String
  deriving DecidableEq

/-- The static plan catalog (`MEMBRESIAS` in the source). -/
def MEMBRESIAS : List Membresia :=
  [⟨"BAS", 12000, "Básica"⟩, ⟨"STD", 18000, "Standard"⟩, ⟨"PRE", 25000, "Premium"⟩]

/-- The fixed list of location codes (`SEDES` in the source). -/
def SEDES : List String := ["CBA", "ROS", "MDP", "BUE"]

/-- The registry capacity (`MAX_SOCIOS` in the source). -/
def MAX_SOCIOS : Nat := 390

/-- `FitnessBusinessLogic.calcularImporte`: look up the plan's price
(0 when absent), apply the under-18 discount, then the card surcharge. -/
def calcularImporte (edad : Int) (membresiaId : String) (metodoPago : String) : ℚ :=
  let membresia := MEMBRESIAS.find? (fun m => m.id == membresiaId)
  let costo0 : ℚ := match membresia with
    | some m => m.precio
    | none => 0
  let costo1 := if edad < 18 then costo0 * (8/10 : ℚ) else costo0
  let costo2 := if metodoPago == "tarjeta" then costo1 * (105/100 : ℚ) else costo1
  costo2

/-- The base price the catalog assigns to a plan id, 0 when the id is
unknown (the `membresia ? membresia.precio : 0` step of the source). -/
def basePrice (membresiaId : String) : ℚ :=
  match MEMBRESIAS.find? (fun m => m.id == membresiaId) with
  | some m => m.precio
  | none => 0

/-- A registered member (the `Socio` interface of the source). -/
structure Socio where
  id : Nat
  nombre : JsString
  dni : Int
  edad : Int
  sede : String
  membresia : String
  metodoPago : String
  importe : ℚ
  deriving DecidableEq

/-- The reasons a registration request can be rejected. -/
inductive RejectReason where
  | MissingRequiredField
  | InvalidNationalId
  | CapacityExceeded
  deriving DecidableEq

/-- The registration form state (`formData` in the source). The two
numeric inputs carry `Option Int`: `none` models a value the browser's
`required` number input would refuse to submit. -/
structure RegistrationForm where
  nombre : JsString
  dni : Option Int
  edad : Option Int
  sede : String
  membresia : String
  metodoPago : String

/-- `handleRegister` of the source, together with the browser-enforced
`required` attributes of the three text/number inputs (which block
submission of an empty `nombre`, `dni` or `edad` before `handleRegister`
runs, modelled here as the `MissingRequiredField` rejection): then the
DNI range check, then the capacity check, then construction of the new
member, prepended to the registry. -/
def handleRegister (form : RegistrationForm) (newId : Nat) (socios : List Socio) :
    Except RejectReason (List Socio) :=
  if form.nombre = [] ∨ form.dni = none ∨ form.edad = none then
    .error .MissingRequiredField
  else
    let dni := form.dni.getD 0
    let edad := form.edad.getD 0
    if dni < 2000000 ∨ dni > 59999999 then .error .InvalidNationalId
    else if socios.length ≥ MAX_SOCIOS then .error .CapacityExceeded
    else
      .ok ({ id := newId, nombre := form.nombre, dni := dni, edad := edad,
             sede := form.sede, membresia := form.membresia,
             metodoPago := form.metodoPago,
             importe := calcularImporte edad form.membresia form.metodoPago } :: socios)

/-- The registry state after a registration attempt: the new list on
success, the old list unchanged on rejection (`setSocios` only runs in
the success path of `handleRegister`). -/
def applyRegister (form : RegistrationForm) (newId : Nat) (socios : List Socio) :
    List Socio :=
  match handleRegister form newId socios with
  | .ok l => l
  | .error _ => socios

/-- The rejection reason of a registration result, `none` on success. -/
def rejectionOf (r : Except RejectReason (List Socio)) : Option RejectReason :=
  match r with
  | .ok _ => none
  | .error e => some e

/-- Member removal: `setSocios(socios.filter(x => x.id !== s.id))` in the
source. The boolean records whether a member with that id was present
(the spec's `remove(id) -> removed` contract; the source's click handler
returns no value). -/
def removeSocio (socios : List Socio) (socioId : Nat) : Bool × List Socio :=
  (socios.any (fun x => x.id == socioId), socios.filter (fun x => x.id != socioId))

/-- Hydration from the persistence snapshot
(`if (saved) setSocios(JSON.parse(saved))`): the snapshot replaces the
registry wholesale, with no validation. -/
def hydrate (snapshot : List Socio) : List Socio := snapshot

/-- One per-location row of the dashboard statistics. -/
structure SedeStat where
  name : String
  count : Nat
  income : ℚ
  deriving DecidableEq

/-- The dashboard statistics record. -/
structure Stats where
  totalRecaudado : ℚ
  totalSocios : Nat
  sedeBreakdown : List SedeStat
  deriving DecidableEq

/-- The `stats` useMemo of the source: total revenue by `reduce`, the
per-location breakdown by mapping over `SEDES`, and the member count. -/
def stats (socios : List Socio) : Stats :=
  let totalRecaudado := socios.foldl (fun acc s => acc + s.importe) 0
  let sedeBreakdown := SEDES.map (fun sede =>
    let sSede := socios.filter (fun s => s.sede == sede)
    { name := sede, count := sSede.length,
      income := sSede.foldl (fun acc s => acc + s.importe) 0 : SedeStat })
  { totalRecaudado := totalRecaudado, totalSocios := socios.length,
    sedeBreakdown := sedeBreakdown }

/-- The `filteredSocios` view of the source: members whose lower-cased
name contains the lower-cased query, or whose DNI's decimal string
contains the query verbatim. -/
def filteredSocios (socios : List Socio) (searchQuery : JsString) : List Socio :=
  socios.filter (fun s =>
    includes (toLowerCase s.nombre) (toLowerCase searchQuery) ||
    includes (intToStr s.dni) searchQuery)

/-- A mutating operation on the registry (registration attempt or removal). -/
inductive Op where
  | register (form : RegistrationForm) (newId : Nat)
  | remove (socioId : Nat)

/-- Run a sequence of registry operations from a starting state. -/
def runOps (ops : List Op) (socios : List Socio) : List Socio :=
  ops.foldl (fun st op =>
    match op with
    | .register form newId => applyRegister form newId st
    | .remove socioId => (removeSocio st socioId).2) socios

/-- Whether every member in the registry has a DNI in the ministerial
range [2000000, 59999999]. -/
def dniOk (socios : List Socio) : Bool :=
  socios.all (fun s => decide (2000000 ≤ s.dni) && decide (s.dni ≤ 59999999))

/-- Whether a form would pass the required-field and DNI-range checks. -/
def formValida (form : RegistrationForm) : Bool :=
  !form.nombre.isEmpty && form.edad.isSome &&
    (match form.dni with
     | some d => decide (2000000 ≤ d) && decide (d ≤ 59999999)
     | none => false)

end Gym

namespace Gym

/-- C1: `calcularImporte` returns the plan's base price, multiplied by 0.8
when age < 18 and then by 1.05 when the payment method is card, the
surcharge always applied to the already-discounted amount; in particular
every age < 18 paying by card yields basePrice × 0.8 × 1.05. -/
theorem calcularImporte_discount_before_surcharge :
    ∀ (edad : Int) (membresiaId metodoPago : String),
      (calcularImporte edad membresiaId metodoPago =
        (if metodoPago = "tarjeta" then
          (if edad < 18 then basePrice membresiaId * (8/10 : ℚ) else basePrice membresiaId)
            * (105/100 : ℚ)
         else
          (if edad < 18 then basePrice membresiaId * (8/10 : ℚ) else basePrice membresiaId))) ∧
      (edad < 18 →
        calcularImporte edad membresiaId "tarjeta" =
          basePrice membresiaId * (8/10 : ℚ) * (105/100 : ℚ)) := by
  intro edad membresiaId metodoPago
  constructor
  · simp only [calcularImporte, basePrice, beq_iff_eq]
  · intro h
    simp only [calcularImporte, basePrice, beq_iff_eq, if_pos h]
    simp

/-- C1 witness: age 17, plan BAS, paying by card. -/
theorem calcularImporte_discount_before_surcharge_witness :
    calcularImporte 17 "BAS" "tarjeta" = basePrice "BAS" * (8/10 : ℚ) * (105/100 : ℚ) :=
  (calcularImporte_discount_before_surcharge 17 "BAS" "tarjeta").2 (by decide)

/-- C6: an unknown plan id yields fee 0 for every age and payment method,
and the accept/reject decision of a registration never depends on the
plan id, so a registration is never rejected on account of it. -/
theorem calcularImporte_unknown_plan_zero :
    (∀ (edad : Int) (membresiaId metodoPago : String),
      MEMBRESIAS.find? (fun m => m.id == membresiaId) = none →
        calcularImporte edad membresiaId metodoPago = 0) ∧
    (∀ (form : RegistrationForm) (m₁ m₂ : String) (newId : Nat) (socios : List Socio),
      rejectionOf (handleRegister { form with membresia := m₁ } newId socios) =
        rejectionOf (handleRegister { form with membresia := m₂ } newId socios)) := by
  constructor
  · intro edad membresiaId metodoPago h
    simp only [calcularImporte, h]
    split_ifs <;> simp
  · intro form m₁ m₂ newId socios
    simp only [handleRegister, rejectionOf]
    split_ifs <;> rfl

/-- C6 witness: the unknown plan id "VIP" yields fee 0. -/
theorem calcularImporte_unknown_plan_zero_witness :
    calcularImporte 30 "VIP" "tarjeta" = 0 :=
  calcularImporte_unknown_plan_zero.1 30 "VIP" "tarjeta" (by decide)

/-- C10: the 1.05 surcharge applies exactly when the payment method is the
literal string "tarjeta"; every other payment-method string yields the
same fee as cash ("efectivo"), the function being total over arbitrary
payment-method strings. -/
theorem calcularImporte_card_surcharge_exact :
    ∀ (edad : Int) (membresiaId metodoPago : String),
      (calcularImporte edad membresiaId "tarjeta" =
        (if edad < 18 then basePrice membresiaId * (8/10 : ℚ) else basePrice membresiaId)
          * (105/100 : ℚ)) ∧
      (metodoPago ≠ "tarjeta" →
        calcularImporte edad membresiaId metodoPago =
          calcularImporte edad membresiaId "efectivo") := by
  intro edad membresiaId metodoPago
  constructor
  · simp only [calcularImporte, basePrice, beq_iff_eq]
    simp
  · intro h
    simp only [calcularImporte, beq_iff_eq, if_neg h]
    simp

/-- C10 witness: the string "TARJETA" (wrong case) is charged like cash. -/
theorem calcularImporte_card_surcharge_exact_witness :
    calcularImporte 30 "BAS" "TARJETA" = calcularImporte 30 "BAS" "efectivo" :=
  (calcularImporte_card_surcharge_exact 30 "BAS" "TARJETA").2 (by decide)

end Gym

namespace Gym

/-- C9: removing an id not present in the registry is a no-op: it reports
`false` and leaves the member sequence exactly unchanged. -/
theorem removeSocio_absent_noop :
    ∀ (socios : List Socio) (socioId : Nat),
      (∀ s ∈ socios, s.id ≠ socioId) →
        removeSocio socios socioId = (false, socios) := by
  intro socios socioId h
  simp only [removeSocio, Prod.mk.injEq]
  constructor
  · simp only [List.any_eq_false]
    intro x hx
    simpa using h x hx
  · apply List.filter_eq_self.mpr
    intro a ha
    simpa using h a ha

/-- C9 witness: removing id 99 from a one-member registry holding id 1. -/
theorem removeSocio_absent_noop_witness :
    removeSocio [⟨1, [65], 3000000, 30, "CBA", "BAS", "efectivo", 12000⟩] 99 =
      (false, [⟨1, [65], 3000000, 30, "CBA", "BAS", "efectivo", 12000⟩]) :=
  removeSocio_absent_noop _ 99 (by decide)

/-- C3 counterexample: hydration performs no validation, so a snapshot
holding a member with DNI 0 yields a registry that violates the
national-id range invariant. -/
theorem hydrate_violates_dni_invariant :
    dniOk (hydrate [⟨7, [65], 0, 30, "CBA", "BAS", "efectivo", 12000⟩]) = false := by
  decide

/-- Helper: a successful registration preserves the DNI-range invariant,
because the new member's DNI passed the range check. -/
theorem dniOk_applyRegister (form : RegistrationForm) (newId : Nat) (socios : List Socio)
    (h : dniOk socios = true) : dniOk (applyRegister form newId socios) = true := by
  unfold applyRegister
  cases hreg : handleRegister form newId socios with
  | error e => exact h
  | ok l =>
    simp only [handleRegister] at hreg
    split_ifs at hreg with h1 h2 h3
    simp only [Except.ok.injEq] at hreg
    subst hreg
    simp only [dniOk, List.all_cons, Bool.and_eq_true, decide_eq_true_eq] at h ⊢
    refine ⟨⟨?_, ?_⟩, h⟩ <;> omega

/-- C3 amended: starting from a registry all of whose members are in the
DNI range (e.g. the empty registry), every sequence of registration
attempts and removals preserves the invariant; hydration, which performs
no validation, can violate it. -/
theorem dniOk_preserved_by_register_remove :
    ∀ (ops : List Op) (socios : List Socio),
      dniOk socios = true → dniOk (runOps ops socios) = true := by
  intro ops
  induction ops with
  | nil => intro socios h; exact h
  | cons op rest ih =>
    intro socios h
    simp only [runOps, List.foldl_cons] at *
    cases op with
    | register form newId => exact ih _ (dniOk_applyRegister form newId socios h)
    | remove socioId =>
      apply ih
      simp only [dniOk, List.all_eq_true] at h ⊢
      intro s hs
      exact h s (List.mem_of_mem_filter hs)

/-- C3 amended witness: a registration followed by a removal, from the
empty registry. -/
theorem dniOk_preserved_by_register_remove_witness :
    dniOk (runOps [Op.register ⟨[65], some 3000000, some 25, "CBA", "BAS", "tarjeta"⟩ 1,
                   Op.remove 1] []) = true :=
  dniOk_preserved_by_register_remove _ [] (by decide)

/-- Helper: a left fold adding fees equals the accumulator plus the sum of
the mapped fees. -/
theorem foldl_add_importe (l : List Socio) (a : ℚ) :
    l.foldl (fun acc s => acc + s.importe) a = a + (l.map (fun s => s.importe)).sum := by
  induction l generalizing a with
  | nil => simp
  | cons x xs ih => simp [List.foldl_cons, ih, add_assoc]

/-- C7: the statistics report total revenue as the sum of all fees, the
total count as the list length, and one per-location row for each
location code in the catalog's fixed order (zero rows included); on the
empty list everything is zero. -/
theorem stats_correct :
    ∀ socios : List Socio,
      ((stats socios).totalRecaudado = (socios.map (fun s => s.importe)).sum) ∧
      ((stats socios).totalSocios = socios.length) ∧
      ((stats socios).sedeBreakdown = SEDES.map (fun sede =>
          { name := sede,
            count := (socios.filter (fun s => s.sede == sede)).length,
            income := ((socios.filter (fun s => s.sede == sede)).map
              (fun s => s.importe)).sum : SedeStat })) ∧
      stats [] = { totalRecaudado := 0, totalSocios := 0,
                   sedeBreakdown := SEDES.map (fun sede => ⟨sede, 0, 0⟩) } := by
  intro socios
  refine ⟨?_, rfl, ?_, by decide⟩
  · simp [stats, foldl_add_importe]
  · simp [stats, foldl_add_importe]

/-- Helper: every code point of a natural number's decimal form is a digit. -/
theorem natDigitCodes_mem (n : Nat) : ∀ c ∈ natDigitCodes n, 48 ≤ c ∧ c ≤ 57 := by
  induction n using Nat.strong_induction_on with
  | _ n ih =>
    intro c hc
    rw [natDigitCodes] at hc
    split at hc
    · simp only [List.mem_singleton] at hc
      omega
    · rcases List.mem_append.mp hc with hl | hr
      · exact ih (n / 10) (Nat.div_lt_self (by omega) (by omega)) c hl
      · simp only [List.mem_singleton] at hr
        have := Nat.mod_lt n (show 0 < 10 by omega)
        omega

/-- Helper: every code point of an integer's decimal form is a digit or
the minus sign (code 45). -/
theorem intToStr_mem (i : Int) : ∀ c ∈ intToStr i, c = 45 ∨ (48 ≤ c ∧ c ≤ 57) := by
  intro c hc
  unfold intToStr at hc
  split at hc
  · rcases List.mem_cons.mp hc with h | h
    · exact Or.inl h
    · exact Or.inr (natDigitCodes_mem _ c h)
  · exact Or.inr (natDigitCodes_mem _ c hc)

/-- Helper: nothing lowercases onto a digit or minus sign except itself. -/
theorem jsToLower_eq_digit {b c : Nat} (h : c = 45 ∨ (48 ≤ c ∧ c ≤ 57))
    (hb : jsToLower b = c) : b = c := by
  unfold jsToLower at hb
  split_ifs at hb with h'
  · omega
  · exact hb

/-- Helper: lowercasing the query does not change whether it occurs inside
a string of digits and minus signs. -/
theorem infix_toLower_digits (q t : List Nat)
    (ht : ∀ c ∈ t, c = 45 ∨ (48 ≤ c ∧ c ≤ 57)) :
    (toLowerCase q <:+: t) ↔ (q <:+: t) := by
  constructor
  · intro h
    have hq : toLowerCase q = q := by
      have hsub := h.subset
      have : ∀ a ∈ q, jsToLower a = a := by
        intro a ha
        exact (jsToLower_eq_digit (ht _ (hsub (List.mem_map_of_mem _ ha))) rfl).symm
      calc toLowerCase q = q.map id := List.map_congr_left this
        _ = q := List.map_id q
    exact hq ▸ h
  · intro h
    have hq : toLowerCase q = q := by
      have : ∀ a ∈ q, jsToLower a = a := by
        intro a ha
        rcases ht a (h.subset ha) with h45 | hdig
        · subst h45; rfl
        · unfold jsToLower
          split_ifs with h' <;> omega
      calc toLowerCase q = q.map id := List.map_congr_left this
        _ = q := List.map_id q
    rw [hq]
    exact h

/-- C8: the search filter returns exactly the members whose lower-cased
name contains the lower-cased query or whose DNI decimal string contains
the query case-insensitively, preserving registry order; the empty query
returns all members. -/
theorem filteredSocios_correct :
    ∀ (socios : List Socio) (q : JsString),
      (filteredSocios socios q = socios.filter (fun s =>
          decide (toLowerCase q <:+: toLowerCase s.nombre) ||
          decide (toLowerCase q <:+: intToStr s.dni))) ∧
      (List.Sublist (filteredSocios socios q) socios) ∧
      filteredSocios socios [] = socios := by
  intro socios q
  refine ⟨?_, ?_, ?_⟩
  · simp only [filteredSocios]
    apply List.filter_congr
    intro s _
    simp only [includes]
    congr 1
    rw [decide_eq_decide]
    exact (infix_toLower_digits q (intToStr s.dni) (intToStr_mem s.dni)).symm
  · simp only [filteredSocios]
    exact List.filter_sublist socios
  · simp [filteredSocios, includes, toLowerCase]

end Gym

namespace Gym

/-- Helper: what `formValida` guarantees about the form's fields. -/
theorem formValida_spec {form : RegistrationForm} (h : formValida form = true) :
    form.nombre ≠ [] ∧ form.edad ≠ none ∧
      ∃ d, form.dni = some d ∧ 2000000 ≤ d ∧ d ≤ 59999999 := by
  unfold formValida at h
  cases hdni : form.dni with
  | none => rw [hdni] at h; simp at h
  | some d =>
    rw [hdni] at h
    simp only [Bool.and_eq_true, Bool.not_eq_true', List.isEmpty_eq_false,
      Option.isSome_iff_ne_none, decide_eq_true_eq] at h
    exact ⟨h.1.1, h.1.2, d, rfl, h.2.1, h.2.2⟩

/-- Helper: on a form passing the required-field and DNI checks, the
registration handler reduces to the capacity decision. -/
theorem handleRegister_valida (form : RegistrationForm) (newId : Nat) (socios : List Socio)
    (hv : formValida form = true) :
    handleRegister form newId socios =
      if socios.length ≥ MAX_SOCIOS then .error .CapacityExceeded
      else .ok ({ id := newId, nombre := form.nombre, dni := form.dni.getD 0,
                  edad := form.edad.getD 0, sede := form.sede,
                  membresia := form.membresia, metodoPago := form.metodoPago,
                  importe := calcularImporte (form.edad.getD 0) form.membresia
                    form.metodoPago } :: socios) := by
  obtain ⟨hn, he, d, hd, h1, h2⟩ := formValida_spec hv
  simp only [handleRegister]
  rw [if_neg (by simp [hn, hd, he]), if_neg (by rw [hd]; simp only [Option.getD_some]; omega)]

/-- Helper: removing a member present in a registry with pairwise-distinct
ids shortens it by exactly one. -/
theorem length_filter_ne_of_mem (socios : List Socio) (s : Socio)
    (hmem : s ∈ socios) (hids : List.Pairwise (fun a b => a.id ≠ b.id) socios) :
    (socios.filter (fun x => x.id != s.id)).length + 1 = socios.length := by
  induction socios with
  | nil => cases hmem
  | cons x xs ih =>
    rcases List.pairwise_cons.mp hids with ⟨hx, hxs⟩
    rcases List.mem_cons.mp hmem with heq | hmem'
    · subst heq
      rw [List.filter_cons_of_neg (by simp),
        List.filter_eq_self.mpr (fun a ha => by simpa using (hx a ha).symm)]
      simp
    · rw [List.filter_cons_of_pos (by simpa using hx s hmem')]
      have := ih hmem' hxs
      simp only [List.length_cons]
      omega

/-- C2: a full registry of 390 members rejects a valid registration with
CapacityExceeded and is left unchanged; removing one member (distinct
ids) leaves 389, after which exactly one more valid registration
succeeds — the registry returns to 390 and the next valid registration
is rejected again; and every successful registration leaves at most 390
members. -/
theorem registry_capacity_bound :
    (∀ (form : RegistrationForm) (newId : Nat) (socios : List Socio),
      socios.length = MAX_SOCIOS → formValida form = true →
        handleRegister form newId socios = .error .CapacityExceeded ∧
        applyRegister form newId socios = socios) ∧
    (∀ (socios : List Socio) (s : Socio), s ∈ socios →
      List.Pairwise (fun a b => a.id ≠ b.id) socios → socios.length = MAX_SOCIOS →
        ((removeSocio socios s.id).2).length = MAX_SOCIOS - 1) ∧
    (∀ (form : RegistrationForm) (newId : Nat) (socios : List Socio),
      socios.length = MAX_SOCIOS - 1 → formValida form = true →
        rejectionOf (handleRegister form newId socios) = none ∧
        (applyRegister form newId socios).length = MAX_SOCIOS ∧
        (∀ (form₂ : RegistrationForm) (newId₂ : Nat), formValida form₂ = true →
          handleRegister form₂ newId₂ (applyRegister form newId socios) =
            .error .CapacityExceeded)) ∧
    (∀ (form : RegistrationForm) (newId : Nat) (socios l : List Socio),
      handleRegister form newId socios = .ok l → l.length ≤ MAX_SOCIOS) := by
  refine ⟨?_, ?_, ?_, ?_⟩
  · intro form newId socios hlen hv
    have h := handleRegister_valida form newId socios hv
    rw [hlen, if_pos (le_refl _)] at h
    refine ⟨h, ?_⟩
    unfold applyRegister
    rw [h]
  · intro socios s hmem hids hlen
    have := length_filter_ne_of_mem socios s hmem hids
    simp only [removeSocio]
    omega
  · intro form newId socios hlen hv
    have h := handleRegister_valida form newId socios hv
    rw [hlen, if_neg (by unfold MAX_SOCIOS; omega)] at h
    have happ : applyRegister form newId socios =
        ({ id := newId, nombre := form.nombre, dni := form.dni.getD 0,
           edad := form.edad.getD 0, sede := form.sede, membresia := form.membresia,
           metodoPago := form.metodoPago,
           importe := calcularImporte (form.edad.getD 0) form.membresia form.metodoPago }
          :: socios) := by
      unfold applyRegister
      rw [h]
    refine ⟨by rw [h]; rfl, ?_, ?_⟩
    · rw [happ]
      simp only [List.length_cons]
      rw [hlen]
      unfold MAX_SOCIOS
      omega
    · intro form₂ newId₂ hv₂
      have h₂ := handleRegister_valida form₂ newId₂ (applyRegister form newId socios) hv₂
      rw [happ] at h₂ ⊢
      rw [h₂, if_pos]
      simp only [List.length_cons, hlen]
      unfold MAX_SOCIOS
      omega
  · intro form newId socios l h
    simp only [handleRegister] at h
    split_ifs at h with h1 h2 h3
    simp only [Except.ok.injEq] at h
    subst h
    simp only [List.length_cons]
    omega

/-- A valid form and concrete registries used to instantiate the capacity
theorems. -/
def mkForm : RegistrationForm := ⟨[65], some 3000000, some 30, "CBA", "BAS", "efectivo"⟩

/-- A placeholder member with a given id. -/
def mkSocio (i : Nat) : Socio := ⟨i, [65], 3000000, 30, "CBA", "BAS", "efectivo", 12000⟩

/-- A registry at full capacity: 390 members with distinct ids. -/
def socios390 : List Socio := (List.range 390).map mkSocio

/-- A registry one below capacity: 389 members with distinct ids. -/
def socios389 : List Socio := (List.range 389).map mkSocio

/-- Helper: the full concrete registry has pairwise-distinct ids. -/
theorem socios390_pairwise : List.Pairwise (fun a b => a.id ≠ b.id) socios390 := by
  unfold socios390
  rw [List.pairwise_map]
  refine (List.pairwise_lt_range 390).imp ?_
  intro a b hab
  simp only [mkSocio]
  omega

/-- C2 witness: the concrete full registry rejects a valid form and stays
unchanged; removing the member with id 0 leaves 389; from 389 a valid
form is accepted, reaching 390, and a further valid form is rejected;
a successful registration on the empty registry stays within capacity. -/
theorem registry_capacity_bound_witness :
    (handleRegister mkForm 1000 socios390 = .error .CapacityExceeded ∧
     applyRegister mkForm 1000 socios390 = socios390) ∧
    ((removeSocio socios390 (mkSocio 0).id).2.length = MAX_SOCIOS - 1) ∧
    (rejectionOf (handleRegister mkForm 1000 socios389) = none ∧
     (applyRegister mkForm 1000 socios389).length = MAX_SOCIOS ∧
     handleRegister mkForm 1001 (applyRegister mkForm 1000 socios389) =
       .error .CapacityExceeded) ∧
    ((applyRegister mkForm 1 []).length ≤ MAX_SOCIOS) := by
  refine ⟨registry_capacity_bound.1 mkForm 1000 socios390
      (by simp [socios390, MAX_SOCIOS]) (by decide),
    registry_capacity_bound.2.1 socios390 (mkSocio 0)
      (List.mem_map_of_mem _ (by simp)) socios390_pairwise (by simp [socios390, MAX_SOCIOS]),
    ?_,
    registry_capacity_bound.2.2.2 mkForm 1 [] (applyRegister mkForm 1 []) rfl⟩
  have h := registry_capacity_bound.2.2.1 mkForm 1000 socios389
    (by simp [socios389, MAX_SOCIOS]) (by decide)
  exact ⟨h.1, h.2.1, h.2.2 mkForm 1001 (by decide)⟩

/-- C4: the registration checks run in order and short-circuit on the
first failure: a missing or empty required field is rejected with
MissingRequiredField whatever the other checks would say; with all
fields present, an out-of-range DNI is rejected with InvalidNationalId
even when the registry is full; capacity is checked only after both. -/
theorem handleRegister_check_order :
    ∀ (form : RegistrationForm) (newId : Nat) (socios : List Socio),
      ((form.nombre = [] ∨ form.dni = none ∨ form.edad = none) →
        handleRegister form newId socios = .error .MissingRequiredField) ∧
      (∀ d : Int, form.nombre ≠ [] → form.dni = some d → form.edad ≠ none →
        (d < 2000000 ∨ d > 59999999) →
          handleRegister form newId socios = .error .InvalidNationalId) ∧
      (∀ d : Int, form.nombre ≠ [] → form.dni = some d → form.edad ≠ none →
        2000000 ≤ d → d ≤ 59999999 → socios.length ≥ MAX_SOCIOS →
          handleRegister form newId socios = .error .CapacityExceeded) := by
  intro form newId socios
  refine ⟨?_, ?_, ?_⟩
  · intro h
    simp only [handleRegister]
    rw [if_pos h]
  · intro d hn hd he hrange
    simp only [handleRegister]
    rw [if_neg (by simp [hn, hd, he]),
      if_pos (by rw [hd]; simp only [Option.getD_some]; exact hrange)]
  · intro d hn hd he h1 h2 hcap
    simp only [handleRegister]
    rw [if_neg (by simp [hn, hd, he]),
      if_neg (by rw [hd]; simp only [Option.getD_some]; omega), if_pos hcap]

/-- C4 witness: on the full registry, an empty name with an out-of-range
DNI is rejected as MissingRequiredField; a present name with DNI 0 is
rejected as InvalidNationalId, not CapacityExceeded; a fully valid form
is rejected as CapacityExceeded. -/
theorem handleRegister_check_order_witness :
    (handleRegister ⟨[], some 0, some 20, "CBA", "BAS", "efectivo"⟩ 1 socios390 =
       .error .MissingRequiredField) ∧
    (handleRegister ⟨[65], some 0, some 20, "CBA", "BAS", "efectivo"⟩ 1 socios390 =
       .error .InvalidNationalId) ∧
    (handleRegister mkForm 1 socios390 = .error .CapacityExceeded) :=
  ⟨(handleRegister_check_order _ 1 socios390).1 (Or.inl rfl),
   (handleRegister_check_order _ 1 socios390).2.1 0 (by decide) rfl (by decide)
     (Or.inl (by decide)),
   (handleRegister_check_order _ 1 socios390).2.2 3000000 (by decide) rfl (by decide)
     (by decide) (by decide) (by simp [socios390, MAX_SOCIOS])⟩

/-- C5: with all required fields present, registration is rejected with
InvalidNationalId exactly when the DNI lies outside
[2000000, 59999999]; at the boundary, DNI 1999999 is rejected, 2000000
and 59999999 are accepted, and 60000000 is rejected. -/
theorem handleRegister_invalid_dni_iff :
    (∀ (form : RegistrationForm) (newId : Nat) (socios : List Socio) (d : Int),
      form.nombre ≠ [] → form.dni = some d → form.edad ≠ none →
        (handleRegister form newId socios = .error .InvalidNationalId ↔
          (d < 2000000 ∨ d > 59999999))) ∧
    (handleRegister ⟨[65], some 1999999, some 30, "CBA", "BAS", "efectivo"⟩ 1 [] =
       .error .InvalidNationalId) ∧
    (rejectionOf (handleRegister ⟨[65], some 2000000, some 30, "CBA", "BAS", "efectivo"⟩
       1 []) = none) ∧
    (rejectionOf (handleRegister ⟨[65], some 59999999, some 30, "CBA", "BAS", "efectivo"⟩
       1 []) = none) ∧
    (handleRegister ⟨[65], some 60000000, some 30, "CBA", "BAS", "efectivo"⟩ 1 [] =
       .error .InvalidNationalId) := by
  refine ⟨?_, rfl, rfl, rfl, rfl⟩
  intro form newId socios d hn hd he
  constructor
  · intro heq
    by_contra hno
    push_neg at hno
    simp only [handleRegister] at heq
    rw [if_neg (by simp [hn, hd, he]),
      if_neg (by rw [hd]; simp only [Option.getD_some]; omega)] at heq
    split_ifs at heq
    simp_all
  · intro hrange
    simp only [handleRegister]
    rw [if_neg (by simp [hn, hd, he]),
      if_pos (by rw [hd]; simp only [Option.getD_some]; exact hrange)]

/-- C5 witness: DNI 60000000 is rejected as InvalidNationalId even on a
full registry. -/
theorem handleRegister_invalid_dni_iff_witness :
    handleRegister ⟨[65], some 60000000, some 30, "CBA", "BAS", "efectivo"⟩ 5 socios390 =
      .error .InvalidNationalId :=
  (handleRegister_invalid_dni_iff.1 _ 5 socios390 60000000 (by decide) rfl
    (by decide)).mpr (Or.inr (by decide))

end Gym
